import Mathlib

/-!
Verification of the link-shortener core: the `links` table (src/db/schema.ts),
the repository layer (src/repositories/linkRepository.ts), the service layer
(LinkService in src/services/linkService.ts), and the redirect route handler
(src/pages/[shortCode].ts).  The database is modelled as an explicit `Store`
value threaded through the operations; timestamps and autoincrement ids are
modelled by monotone counters in the store.  Randomness (the `nanoid`
dependency's byte source) is modelled as an explicit function parameter.
-/

/-- A row of the `links` table (src/db/schema.ts) / the `Link` interface
(src/types/link.ts).  `isCustom` and `createdAt` are nullable in the TS type
but are always populated on insert (schema defaults), so they are modelled
total; `createdAt` (a millisecond timestamp) is a `Nat`. -/
structure Link where
  id : Nat
  originalUrl : String
  shortCode : String
  isCustom : Bool
  createdAt : Nat
  clickCount : Nat
deriving Repr, DecidableEq

/-- The `CreateLinkDTO` type (src/types/link.ts): `shortCode?: string` is an
`Option String`; JavaScript treats both `undefined` and `""` as falsy. -/
structure CreateLinkDTO where
  originalUrl : String
  shortCode : Option String
deriving Repr, DecidableEq

/-- The `LinkSummary` type (src/types/link.ts): exactly the three projected fields. -/
structure LinkSummary where
  id : Nat
  originalUrl : String
  shortCode : String
deriving Repr, DecidableEq

/-- State of the `links` table.  `nextId` models the autoincrement primary
key; `now` models the wall clock used for the `created_at` default, bumped
after each insert so successive inserts get non-decreasing timestamps. -/
structure Store where
  rows : List Link
  nextId : Nat
  now : Nat
deriving Repr, DecidableEq

def emptyStore : Store := ⟨[], 1, 0⟩

/-- Failure modes of a database insert on the `links` table: the two unique
constraints of src/db/schema.ts (`original_url` and `short_code`).  The
constraint that fired is distinguishable from the error (as SQLite reports
the violated column). -/
inductive InsertError where
  | uniqueUrl
  | uniqueCode
deriving Repr, DecidableEq

/-- The database insert with the unique constraints of src/db/schema.ts:
it rejects a row whose `originalUrl` or `shortCode` already occurs, and
otherwise appends the row with a fresh id, the current timestamp and
`clickCount = 0` (schema defaults). -/
def insertRow (s : Store) (url code : String) (isCustom : Bool) :
    Except InsertError (Link × Store) :=
  if s.rows.any (fun l => l.originalUrl == url) then .error .uniqueUrl
  else if s.rows.any (fun l => l.shortCode == code) then .error .uniqueCode
  else
    let link : Link := ⟨s.nextId, url, code, isCustom, s.now, 0⟩
    .ok (link, ⟨s.rows ++ [link], s.nextId + 1, s.now + 1⟩)

/-- Model of `LinkRepository.findByOriginalUrl` (src/repositories/linkRepository.ts):
`select().where(eq(links.originalUrl, url)).limit(1)` — the first matching
row, or `null`. -/
def LinkRepository.findByOriginalUrl (s : Store) (url : String) : Option Link :=
  s.rows.find? (fun l => l.originalUrl == url)

/-- Model of `LinkRepository.findByShortCode` (src/repositories/linkRepository.ts). -/
def LinkRepository.findByShortCode (s : Store) (code : String) : Option Link :=
  s.rows.find? (fun l => l.shortCode == code)

/-- Model of `LinkRepository.create` (src/repositories/linkRepository.ts lines 39-50):
inserts `{ originalUrl, shortCode, isCustom: !!data.shortCode }`.  The DTO
field `data.shortCode` here is the final code string (typed
`CreateLinkDTO & \x7b shortCode: string \x7d`), so `!!data.shortCode` is the
JavaScript truthiness of that string: `false` only for `""`. -/
def LinkRepository.create (s : Store) (originalUrl shortCode : String) :
    Except InsertError (Link × Store) :=
  insertRow s originalUrl shortCode (!(shortCode == ""))

/-- The projection `select({ id, originalUrl, shortCode })` used
by `LinkRepository.findAll`. -/
def toSummary (l : Link) : LinkSummary := ⟨l.id, l.originalUrl, l.shortCode⟩

/-- Comparison used by `orderBy(links.createdAt)`. -/
def createdAtLE (a b : Link) : Prop := a.createdAt ≤ b.createdAt

instance : DecidableRel createdAtLE := fun a b => Nat.decLe a.createdAt b.createdAt

instance : IsTotal Link createdAtLE := ⟨fun a b => Nat.le_total a.createdAt b.createdAt⟩

instance : IsTrans Link createdAtLE := ⟨fun _ _ _ hab hbc => Nat.le_trans hab hbc⟩

/-- Model of `LinkRepository.findAll` (src/repositories/linkRepository.ts lines 55-66):
all rows projected to `{ id, originalUrl, shortCode }`, ordered by
`created_at` ascending (modelled by a sort on `createdAt`; SQL guarantees
sortedness and permutation of the underlying rows, nothing more). -/
def LinkRepository.findAll (s : Store) : List LinkSummary :=
  (List.insertionSort createdAtLE s.rows).map toSummary

/-- The 64-character URL alphabet of the `nanoid` dependency
(nanoid/index.browser.js, `urlAlphabet`): `A-Za-z0-9` plus `-` and the
underscore. -/
def urlAlphabet : String :=
  "useandom-26T198340PX75pxJACKVERYMINDBUSHWOLF_GQZbfghjklqvwyzrict"

/-- Modelled from the spec: the allocator's random code generator, which the
source delegates to the `nanoid` dependency (not part of this repository).
The spec describes it as "a random code (8 characters drawn from a URL-safe
alphabet)"; nanoid's published implementation draws `size` random bytes and
maps each byte `b` to `urlAlphabet[b & 63]`, appending from the last byte to
the first.  The byte source is the explicit argument `bytes`. -/
def nanoid (size : Nat) (bytes : Nat → Nat) : String :=
  String.mk ((List.range size).reverse.map
    (fun i => urlAlphabet.toList.getD (bytes i &&& 63) 'u'))

/-- Error codes of `LinkServiceError` (src/services/linkService.ts). -/
inductive ErrCode where
  | CONFLICT
  | BAD_REQUEST
  | NOT_FOUND
  | INTERNAL_SERVER_ERROR
deriving Repr, DecidableEq

/-- The `LinkServiceError` shape (src/services/linkService.ts): a message and a code. -/
structure LinkServiceError where
  message : String
  code : ErrCode
deriving Repr, DecidableEq

/-- The loop body of `LinkService.generateUniqueShortCode`
(src/services/linkService.ts lines 104-120): attempt `i` draws
`nanoid(8)` from byte stream `rand i` and returns the candidate if
`findByShortCode` misses; `fuel` counts the remaining attempts. -/
def LinkService.generateUniqueShortCodeAux (rand : Nat → Nat → Nat) (s : Store) :
    Nat → Nat → Except LinkServiceError String
  | _, 0 => .error ⟨"No se pudo generar un código único", .INTERNAL_SERVER_ERROR⟩
  | i, fuel + 1 =>
    match LinkRepository.findByShortCode s (nanoid 8 (rand i)) with
    | none => .ok (nanoid 8 (rand i))
    | some _ => LinkService.generateUniqueShortCodeAux rand s (i + 1) fuel

/-- Model of `LinkService.generateUniqueShortCode` (src/services/linkService.ts):
up to `maxAttempts` attempts (the source's default, and only, value is 3). -/
def LinkService.generateUniqueShortCode (rand : Nat → Nat → Nat) (s : Store)
    (maxAttempts : Nat) : Except LinkServiceError String :=
  LinkService.generateUniqueShortCodeAux rand s 0 maxAttempts

/-- Step 2 of `LinkService.createLink` (src/services/linkService.ts lines
59-77): `let finalShortCode = data.shortCode; if (!finalShortCode) ...` —
JavaScript falsiness sends both a missing code and `""` to the generator;
otherwise the custom code is rejected with `BAD_REQUEST` when taken. -/
def LinkService.determineShortCode (rand : Nat → Nat → Nat) (s : Store)
    (data : CreateLinkDTO) : Except LinkServiceError String :=
  match data.shortCode with
  | none => LinkService.generateUniqueShortCode rand s 3
  | some c =>
    if c == "" then LinkService.generateUniqueShortCode rand s 3
    else
      match LinkRepository.findByShortCode s c with
      | some _ =>
        .error ⟨"Este código personalizado ya está en uso. Elige uno diferente.", .BAD_REQUEST⟩
      | none => .ok c

/-- Model of `LinkService.createLink` (src/services/linkService.ts lines 48-98), with
the check/insert race window made explicit: the service's reads (steps 1 and
2) run against `sCheck`, while the repository insert (step 3) runs against
`sInsert` — a concurrent writer may have committed between the two.
Sequential execution is the diagonal `sCheck = sInsert`.  The surrounding
`try/catch` rethrows `LinkServiceError`s unchanged and converts any other
failure (in particular a unique-constraint violation raised by the insert)
to the generic `INTERNAL_SERVER_ERROR`.  The returned store is the final
database state (unchanged by the service when no insert happened). -/
def LinkService.createLinkW (rand : Nat → Nat → Nat) (sCheck sInsert : Store)
    (data : CreateLinkDTO) : Except LinkServiceError Link × Store :=
  match LinkRepository.findByOriginalUrl sCheck data.originalUrl with
  | some _ => (.error ⟨"Esta URL ya está registrada", .CONFLICT⟩, sInsert)
  | none =>
    match LinkService.determineShortCode rand sCheck data with
    | .error e => (.error e, sInsert)
    | .ok code =>
      match LinkRepository.create sInsert data.originalUrl code with
      | .ok (link, s') => (.ok link, s')
      | .error _ => (.error ⟨"Error al crear el enlace", .INTERNAL_SERVER_ERROR⟩, sInsert)

/-- Model of `LinkService.createLink` under sequential execution (no interference
between the service's checks and the insert). -/
def LinkService.createLink (rand : Nat → Nat → Nat) (s : Store)
    (data : CreateLinkDTO) : Except LinkServiceError Link × Store :=
  LinkService.createLinkW rand s s data

/-- Outcomes of the redirect route handler (src/pages/[shortCode].ts):
HTTP 400, 404, 302 (with the Location target) and 500. -/
inductive RedirectResponse where
  | badRequest
  | notFound
  | redirect (location : String)
  | internalServerError
deriving Repr, DecidableEq

/-- The `db.update(links).set({ clickCount: newCount }).where(eq(links.id, id))`
call of the route handler: every row whose id matches gets the new count. -/
def updateClickCount (s : Store) (id : Nat) (newCount : Nat) : Store :=
  { s with rows := s.rows.map (fun l => if l.id == id then { l with clickCount := newCount } else l) }

/-- The `GET` route handler of src/pages/[shortCode].ts.  `shortCodeParam`
is `params.shortCode` (`string | undefined`); `if (!shortCode)` catches both
`undefined` and `""` with a 400.  The lookup takes the first row matching
the code.  `incrementFails` models whether the click-count `db.update`
throws (a storage failure): the handler's `try/catch` then answers 500 and
the store is left unchanged; otherwise the count is set to the read value
plus one and the handler redirects (302) to the stored `originalUrl`. -/
def GET (incrementFails : Bool) (s : Store) (shortCodeParam : Option String) :
    RedirectResponse × Store :=
  match shortCodeParam with
  | none => (.badRequest, s)
  | some shortCode =>
    if shortCode == "" then (.badRequest, s)
    else
      match s.rows.find? (fun l => l.shortCode == shortCode) with
      | none => (.notFound, s)
      | some link =>
        if incrementFails then (.internalServerError, s)
        else (.redirect link.originalUrl, updateClickCount s link.id (link.clickCount + 1))

/-- The custom-code validation of the actions layer (zod schema:
`min(3).max(10).regex([a-zA-Z0-9-]+)`).  Per the spec this same constraint
is the contract for generated codes. -/
def isShortCodeChar (c : Char) : Bool := c.isAlphanum || c == '-'

/-- Whole-code validity: length 3-10 and every character in `[A-Za-z0-9-]`. -/
def validShortCode (code : String) : Bool :=
  decide (3 ≤ code.length) && decide (code.length ≤ 10) && code.toList.all isShortCodeChar

/-- Pairwise distinctness demanded of any two distinct rows: distinct ids
(primary key) and the two unique columns of src/db/schema.ts. -/
def RowDistinct (a b : Link) : Prop :=
  a.id ≠ b.id ∧ a.originalUrl ≠ b.originalUrl ∧ a.shortCode ≠ b.shortCode

/-- Well-formedness of a store: rows pairwise distinct on id, originalUrl and
shortCode, and all ids below the autoincrement counter. -/
def WF (s : Store) : Prop :=
  s.rows.Pairwise RowDistinct ∧ ∀ l ∈ s.rows, l.id < s.nextId

/-- Store states reachable from the empty table by any sequence of
`createLink` and redirect (`GET`) operations, with arbitrary randomness and
arbitrary click-increment failures. -/
inductive Reachable : Store → Prop where
  | empty : Reachable emptyStore
  | create (rand : Nat → Nat → Nat) (data : CreateLinkDTO) {s : Store} :
      Reachable s → Reachable (LinkService.createLink rand s data).2
  | resolve (incrementFails : Bool) (p : Option String) {s : Store} :
      Reachable s → Reachable (GET incrementFails s p).2

/-! ### Helper lemmas -/

/-- In a list where the matching element is unique, `find?` returns it. -/
theorem find?_eq_some_of_unique {α : Type} (p : α → Bool) :
    ∀ (rows : List α) (l : α), l ∈ rows → p l = true →
      (∀ x ∈ rows, p x = true → x = l) → rows.find? p = some l := by
  intro rows
  induction rows with
  | nil => intro l h _ _; cases h
  | cons a tl ih =>
    intro l hmem hp huniq
    by_cases ha : p a = true
    · have : a = l := huniq a (List.mem_cons_self a tl) ha
      subst this
      exact List.find?_cons_of_pos tl ha
    · have hl : l ∈ tl := by
        cases hmem with
        | head => exact absurd hp ha
        | tail _ h => exact h
      rw [List.find?_cons_of_neg tl ha]
      exact ih l hl hp (fun x hx hpx => huniq x (List.mem_cons_of_mem a hx) hpx)

theorem any_eq_false_of_find?_none {α : Type} {p : α → Bool} {l : List α}
    (h : l.find? p = none) : l.any p = false :=
  List.any_eq_false.mpr (List.find?_eq_none.mp h)

/-- Relation `RowDistinct` holds symmetrically. -/
theorem rowDistinct_symm : Symmetric RowDistinct := by
  intro a b h
  exact ⟨h.1.symm, h.2.1.symm, h.2.2.symm⟩

/-- A `nanoid` result has exactly the requested number of characters. -/
theorem nanoid_length (size : Nat) (bytes : Nat → Nat) :
    (nanoid size bytes).length = size := by
  show ((List.range size).reverse.map
    (fun i => urlAlphabet.toList.getD (bytes i &&& 63) 'u')).length = size
  rw [List.length_map, List.length_reverse, List.length_range]

/-- Every position of the nanoid alphabet holds a character that is
alphanumeric, a hyphen, or an underscore (indices are always masked to
0-63, and the out-of-range default is the letter u). -/
theorem urlAlphabet_getD_ok :
    ∀ n < 64, (isShortCodeChar (urlAlphabet.toList.getD n 'u')
      || urlAlphabet.toList.getD n 'u' == '_') = true := by decide

/-- Every character of a `nanoid` result is alphanumeric, a hyphen, or an
underscore. -/
theorem nanoid_chars (size : Nat) (bytes : Nat → Nat) :
    (nanoid size bytes).toList.all (fun c => isShortCodeChar c || c == '_') = true := by
  rw [List.all_eq_true]
  intro c hc
  have hc' : c ∈ (List.range size).reverse.map
      (fun i => urlAlphabet.toList.getD (bytes i &&& 63) 'u') := hc
  obtain ⟨i, _, rfl⟩ := List.mem_map.mp hc'
  exact urlAlphabet_getD_ok (bytes i &&& 63) (Nat.lt_succ_of_le Nat.and_le_right)

/-- Any code the generation loop returns is a `nanoid 8` output for one of
the attempts. -/
theorem generateAux_ok_shape (rand : Nat → Nat → Nat) (s : Store) :
    ∀ (fuel i : Nat) (code : String),
      LinkService.generateUniqueShortCodeAux rand s i fuel = .ok code →
      ∃ j, code = nanoid 8 (rand j) := by
  intro fuel
  induction fuel with
  | zero => intro i code h; simp [LinkService.generateUniqueShortCodeAux] at h
  | succ n ih =>
    intro i code h
    rw [LinkService.generateUniqueShortCodeAux] at h
    split at h
    · exact ⟨i, (Except.ok.injEq _ _ ▸ h).symm⟩
    · exact ih (i + 1) code h

/-- Lemma: `insertRow` preserves store well-formedness. -/
theorem wf_insertRow {s : Store} {url code : String} {ic : Bool} {l : Link} {s' : Store}
    (h : insertRow s url code ic = .ok (l, s')) (hwf : WF s) : WF s' := by
  rw [insertRow] at h
  split at h
  · cases h
  · split at h
    · cases h
    · rename_i hurl hcode
      rw [Except.ok.injEq, Prod.mk.injEq] at h
      obtain ⟨-, hs'⟩ := h
      subst hs'
      constructor
      · rw [List.pairwise_append]
        refine ⟨hwf.1, List.pairwise_singleton _ _, ?_⟩
        intro a ha b hb
        rw [List.mem_singleton] at hb
        subst hb
        have hid : a.id < s.nextId := hwf.2 a ha
        have hu : ∀ x ∈ s.rows, ¬(x.originalUrl == url) = true := List.any_eq_false.mp (by simpa using hurl)
        have hc : ∀ x ∈ s.rows, ¬(x.shortCode == code) = true := List.any_eq_false.mp (by simpa using hcode)
        refine ⟨Nat.ne_of_lt hid, ?_, ?_⟩
        · intro hbad
          exact hu a ha (by simpa using hbad)
        · intro hbad
          exact hc a ha (by simpa using hbad)
      · intro x hx
        rw [List.mem_append] at hx
        cases hx with
        | inl hx => exact Nat.lt_succ_of_lt (hwf.2 x hx)
        | inr hx =>
          rw [List.mem_singleton] at hx
          subst hx
          exact Nat.lt_succ_self _

/-- Lemma: `createLink` preserves well-formedness of the database state, even when
an interfering write happened between the service's checks and the insert:
the insert's own constraints are the authoritative guard. -/
theorem wf_createLinkW (rand : Nat → Nat → Nat) (sCheck : Store) {s : Store}
    (data : CreateLinkDTO) (hwf : WF s) :
    WF (LinkService.createLinkW rand sCheck s data).2 := by
  rw [LinkService.createLinkW]
  split
  · exact hwf
  · split
    · exact hwf
    · split
      · rename_i link s' heq
        exact wf_insertRow heq hwf
      · exact hwf

/-- Setting a row's click count touches no id, URL or code, so it
preserves well-formedness. -/
theorem wf_updateClickCount {s : Store} (id n : Nat) (hwf : WF s) :
    WF (updateClickCount s id n) := by
  constructor
  · refine List.Pairwise.map _ ?_ hwf.1
    intro a b hab
    obtain ⟨h1, h2, h3⟩ := hab
    by_cases ha : (a.id == id) = true <;> by_cases hb : (b.id == id) = true <;>
      simp [RowDistinct, ha, hb, h1, h2, h3]
  · intro x hx
    rw [updateClickCount] at hx
    obtain ⟨y, hy, rfl⟩ := List.mem_map.mp hx
    have hlt := hwf.2 y hy
    by_cases h : (y.id == id) = true <;> simpa [updateClickCount, h] using hlt

/-- The redirect handler preserves well-formedness: it never touches ids,
URLs or codes. -/
theorem wf_GET (incrementFails : Bool) {s : Store} (p : Option String)
    (hwf : WF s) : WF (GET incrementFails s p).2 := by
  rw [GET.eq_def]
  split
  · exact hwf
  · split
    · exact hwf
    · split
      · exact hwf
      · split
        · exact hwf
        · exact wf_updateClickCount _ _ hwf

/-- Every reachable store is well-formed. -/
theorem reachable_wf {s : Store} (h : Reachable s) : WF s := by
  induction h with
  | empty => exact ⟨List.Pairwise.nil, by intro l hl; cases hl⟩
  | create rand data _ ih => exact wf_createLinkW rand _ data ih
  | resolve incrementFails p _ ih => exact wf_GET incrementFails p ih

/-- C8: in every store state reachable by any sequence of createLink and
resolve operations from the empty store, no two links share the same
originalUrl and no two links share the same shortCode. -/
theorem C8_uniqueness_invariant (s : Store) (h : Reachable s) :
    s.rows.Pairwise (fun a b => a.originalUrl ≠ b.originalUrl ∧ a.shortCode ≠ b.shortCode) :=
  (reachable_wf h).1.imp (fun hab => ⟨hab.2.1, hab.2.2⟩)

/-- Witness for C8 at a concrete two-operation history: a create followed by
a redirect, starting from the empty store. -/
theorem C8_uniqueness_invariant_witness :
    ((GET false (LinkService.createLink (fun _ _ => 0) emptyStore
        ⟨"https://example.com", none⟩).2 (some "uuuuuuuu")).2).rows.Pairwise
      (fun a b => a.originalUrl ≠ b.originalUrl ∧ a.shortCode ≠ b.shortCode) :=
  C8_uniqueness_invariant _
    (Reachable.resolve false (some "uuuuuuuu")
      (Reachable.create (fun _ _ => 0) ⟨"https://example.com", none⟩ Reachable.empty))

/-- C9: for every store state, findAll (listAll) returns one summary per
stored link — the image under the three-field projection of a permutation
of the rows that is sorted by creation time ascending — and in particular
has one entry per row. -/
theorem C9_findAll_summaries (s : Store) :
    ∃ rows' : List Link, rows'.Perm s.rows ∧ List.Sorted createdAtLE rows' ∧
      LinkRepository.findAll s = rows'.map toSummary ∧
      (LinkRepository.findAll s).length = s.rows.length := by
  refine ⟨List.insertionSort createdAtLE s.rows, List.perm_insertionSort _ _,
    List.sorted_insertionSort _ _, rfl, ?_⟩
  rw [LinkRepository.findAll, List.length_map]
  exact (List.perm_insertionSort _ _).length_eq

/-- C1: for every (present, hence nonempty) code, resolving against a
well-formed store with no matching link answers 404 and leaves the store
unchanged; resolving a stored link's code answers a 302 to that link's
originalUrl, the stored copy of that link afterwards carries clickCount + 1,
and every other row is untouched. -/
theorem C1_resolve_contract (s : Store) (code : String)
    (hcode : code ≠ "") (hwf : WF s) :
    ((∀ l ∈ s.rows, l.shortCode ≠ code) → GET false s (some code) = (.notFound, s)) ∧
    (∀ l ∈ s.rows, l.shortCode = code →
      GET false s (some code) =
        (.redirect l.originalUrl, updateClickCount s l.id (l.clickCount + 1)) ∧
      LinkRepository.findByShortCode (GET false s (some code)).2 code =
        some { l with clickCount := l.clickCount + 1 } ∧
      ∀ x ∈ s.rows, x.id ≠ l.id → x ∈ (GET false s (some code)).2.rows) := by
  have hb : (code == "") = false := beq_eq_false_iff_ne.mpr hcode
  constructor
  · intro habs
    have hfind : s.rows.find? (fun l => l.shortCode == code) = none :=
      List.find?_eq_none.mpr (fun x hx => by simpa using habs x hx)
    rw [GET.eq_def]
    simp [hb, hfind]
  · intro l hl hcodeEq
    have hfind : s.rows.find? (fun x => x.shortCode == code) = some l := by
      apply find?_eq_some_of_unique _ _ _ hl (by simpa using hcodeEq)
      intro x hx hpx
      by_contra hne
      have hdist := (hwf.1.forall rowDistinct_symm) hx hl hne
      have hx' : x.shortCode = code := by simpa using hpx
      exact hdist.2.2 (hx'.trans hcodeEq.symm)
    have hGET : GET false s (some code) =
        (.redirect l.originalUrl, updateClickCount s l.id (l.clickCount + 1)) := by
      rw [GET.eq_def]
      simp [hb, hfind]
    refine ⟨hGET, ?_, ?_⟩
    · rw [hGET, LinkRepository.findByShortCode, updateClickCount]
      have hcomp : ((fun x : Link => x.shortCode == code) ∘
          (fun x : Link => if x.id == l.id then { x with clickCount := l.clickCount + 1 } else x)) =
          (fun x : Link => x.shortCode == code) := by
        funext x
        by_cases h : (x.id == l.id) = true <;> simp [Function.comp, h]
      rw [List.find?_map, hcomp, hfind]
      simp
    · intro x hx hne
      rw [hGET, updateClickCount]
      have hnb : (x.id == l.id) = false := beq_eq_false_iff_ne.mpr hne
      have hfx : (if x.id == l.id then { x with clickCount := l.clickCount + 1 } else x) = x := by
        simp [hnb]
      exact hfx ▸ List.mem_map_of_mem _ hx

/-- Witness for C1 on a one-row store: resolving the stored code "abc"
redirects to its URL and bumps its count to 1; resolving "zz" answers 404. -/
theorem C1_resolve_contract_witness :
    GET false ⟨[⟨1, "https://a.com", "abc", true, 0, 0⟩], 2, 1⟩ (some "abc") =
      (.redirect "https://a.com", ⟨[⟨1, "https://a.com", "abc", true, 0, 1⟩], 2, 1⟩) ∧
    GET false ⟨[⟨1, "https://a.com", "abc", true, 0, 0⟩], 2, 1⟩ (some "zz") =
      (.notFound, ⟨[⟨1, "https://a.com", "abc", true, 0, 0⟩], 2, 1⟩) := by
  have hwf : WF ⟨[⟨1, "https://a.com", "abc", true, 0, 0⟩], 2, 1⟩ := by
    constructor
    · exact List.pairwise_singleton _ _
    · intro l hl
      rw [List.mem_singleton] at hl
      subst hl
      decide
  constructor
  · have h := ((C1_resolve_contract _ "abc" (by decide) hwf).2
      ⟨1, "https://a.com", "abc", true, 0, 0⟩ (List.mem_singleton.mpr rfl) rfl).1
    rw [h]
    decide
  · exact (C1_resolve_contract _ "zz" (by decide) hwf).1
      (by intro l hl; rw [List.mem_singleton] at hl; subst hl; decide)

/-- C2 counterexample: on a store holding the link "abc", when the click
update fails the handler answers 500 — it does not redirect to the stored
URL, contrary to the claim. -/
theorem C2_counterexample :
    (GET true ⟨[⟨1, "https://a.com", "abc", true, 0, 0⟩], 2, 1⟩ (some "abc")).1 =
      .internalServerError ∧
    (GET true ⟨[⟨1, "https://a.com", "abc", true, 0, 0⟩], 2, 1⟩ (some "abc")).1 ≠
      .redirect "https://a.com" :=
  ⟨rfl, by decide⟩

/-- C2 (amended): whenever the lookup finds a link but the click-increment
update fails, the handler's catch-all answers 500 and the store is left
unchanged; the redirect is not issued. -/
theorem C2_increment_failure_yields_500 (s : Store) (code : String) (l : Link)
    (hcode : code ≠ "")
    (hfind : s.rows.find? (fun x => x.shortCode == code) = some l) :
    GET true s (some code) = (.internalServerError, s) := by
  have hb : (code == "") = false := beq_eq_false_iff_ne.mpr hcode
  rw [GET.eq_def]
  simp [hb, hfind]

/-- Witness for C2's amended theorem on a one-row store. -/
theorem C2_increment_failure_yields_500_witness :
    GET true ⟨[⟨1, "https://a.com", "abc", true, 0, 0⟩], 2, 1⟩ (some "abc") =
      (.internalServerError, ⟨[⟨1, "https://a.com", "abc", true, 0, 0⟩], 2, 1⟩) :=
  C2_increment_failure_yields_500 _ "abc" ⟨1, "https://a.com", "abc", true, 0, 0⟩
    (by decide) rfl

/-- C3: evaluating createLink at the failing input — no custom code supplied,
empty store — shows the persisted link carries a generated code yet has
isCustom = true, because the repository derives isCustom from the final code
string, which is always non-empty. -/
theorem C3_generated_code_has_isCustom_true :
    (LinkService.createLink (fun _ _ => 44) emptyStore ⟨"https://example.com", none⟩).1 =
      .ok ⟨1, "https://example.com", "________", true, 0, 0⟩ := rfl

/-- C4 counterexample: creating an already-stored URL does fail with CONFLICT
and leaves the store unchanged, but the fixed error message does not contain
the existing link's short code "zzzz9". -/
theorem C4_counterexample :
    LinkService.createLink (fun _ _ => 0) ⟨[⟨1, "https://a.com", "zzzz9", true, 0, 0⟩], 2, 1⟩
        ⟨"https://a.com", none⟩ =
      (.error ⟨"Esta URL ya está registrada", .CONFLICT⟩,
        ⟨[⟨1, "https://a.com", "zzzz9", true, 0, 0⟩], 2, 1⟩) ∧
    ¬ ("zzzz9".toList <:+: "Esta URL ya está registrada".toList) :=
  ⟨rfl, by decide⟩

/-- C4 (amended): a second createLink for an already-stored originalUrl fails
with CONFLICT carrying the fixed message "Esta URL ya está registrada"
(which does not mention the existing short code), and the store — hence the
first record — is unchanged. -/
theorem C4_duplicate_url_conflict (rand : Nat → Nat → Nat) (s : Store)
    (data : CreateLinkDTO) (l : Link)
    (h : LinkRepository.findByOriginalUrl s data.originalUrl = some l) :
    LinkService.createLink rand s data =
      (.error ⟨"Esta URL ya está registrada", .CONFLICT⟩, s) := by
  rw [LinkService.createLink, LinkService.createLinkW.eq_def, h]

/-- Witness for C4's amended theorem. -/
theorem C4_duplicate_url_conflict_witness :
    LinkService.createLink (fun _ _ => 0) ⟨[⟨1, "https://b.com", "abc", true, 0, 0⟩], 2, 1⟩
        ⟨"https://b.com", some "xyz"⟩ =
      (.error ⟨"Esta URL ya está registrada", .CONFLICT⟩,
        ⟨[⟨1, "https://b.com", "abc", true, 0, 0⟩], 2, 1⟩) :=
  C4_duplicate_url_conflict (fun _ _ => 0) _ ⟨"https://b.com", some "xyz"⟩
    ⟨1, "https://b.com", "abc", true, 0, 0⟩ rfl

/-- C5 counterexample: a uniqueness race (the checks saw an empty store, a
concurrent writer then stored the same URL before the insert) makes
createLink fail with INTERNAL_SERVER_ERROR, not with the CONFLICT (or
BAD_REQUEST) the claim requires. -/
theorem C5_counterexample :
    (LinkService.createLinkW (fun _ _ => 0) emptyStore
        ⟨[⟨1, "https://a.com", "abc", true, 0, 0⟩], 2, 1⟩ ⟨"https://a.com", some "xyz"⟩).1 =
      .error ⟨"Error al crear el enlace", .INTERNAL_SERVER_ERROR⟩ ∧
    ErrCode.INTERNAL_SERVER_ERROR ≠ ErrCode.CONFLICT ∧
    ErrCode.INTERNAL_SERVER_ERROR ≠ ErrCode.BAD_REQUEST :=
  ⟨rfl, by decide, by decide⟩

/-- C5 (amended): when the service's checks pass but the insert itself fails
on either uniqueness constraint (a concurrent writer won the race), the
catch-all converts the failure to INTERNAL_SERVER_ERROR with the generic
message, regardless of which field collided, and the insert is not
retried (the single failing insert is the final outcome). -/
theorem C5_race_surfaces_internal (rand : Nat → Nat → Nat) (sCheck sInsert : Store)
    (data : CreateLinkDTO) (code : String) (e : InsertError)
    (h1 : LinkRepository.findByOriginalUrl sCheck data.originalUrl = none)
    (h2 : LinkService.determineShortCode rand sCheck data = .ok code)
    (h3 : LinkRepository.create sInsert data.originalUrl code = .error e) :
    LinkService.createLinkW rand sCheck sInsert data =
      (.error ⟨"Error al crear el enlace", .INTERNAL_SERVER_ERROR⟩, sInsert) := by
  rw [LinkService.createLinkW.eq_def, h1, h2]
  simp [h3]

/-- Witness for C5's amended theorem, at the race scenario of the
counterexample. -/
theorem C5_race_surfaces_internal_witness :
    LinkService.createLinkW (fun _ _ => 0) emptyStore
        ⟨[⟨1, "https://a.com", "abc", true, 0, 0⟩], 2, 1⟩ ⟨"https://a.com", some "xyz"⟩ =
      (.error ⟨"Error al crear el enlace", .INTERNAL_SERVER_ERROR⟩,
        ⟨[⟨1, "https://a.com", "abc", true, 0, 0⟩], 2, 1⟩) :=
  C5_race_surfaces_internal (fun _ _ => 0) emptyStore _ ⟨"https://a.com", some "xyz"⟩
    "xyz" .uniqueUrl rfl rfl rfl

/-- C6 counterexample: with bytes that all mask to 44, the allocator's
generator returns "________" on the empty store — an 8-character code that
fails the [A-Za-z0-9-] constraint applied to custom codes. -/
theorem C6_counterexample :
    LinkService.generateUniqueShortCode (fun _ _ => 44) emptyStore 3 = .ok "________" ∧
    validShortCode "________" = false :=
  ⟨rfl, rfl⟩

/-- C6 (amended): every code the generator returns is exactly 8 characters
long — hence within the 3-10 length bound — and each character comes from
nanoid's URL alphabet: alphanumeric, hyphen, or underscore.  The underscore
is permitted by the generator although the custom-code constraint
[A-Za-z0-9-] excludes it. -/
theorem C6_generated_code_shape (rand : Nat → Nat → Nat) (s : Store)
    (maxAttempts : Nat) (code : String)
    (h : LinkService.generateUniqueShortCode rand s maxAttempts = .ok code) :
    code.length = 8 ∧ 3 ≤ code.length ∧ code.length ≤ 10 ∧
      code.toList.all (fun c => isShortCodeChar c || c == '_') = true := by
  obtain ⟨j, rfl⟩ := generateAux_ok_shape rand s maxAttempts 0 code h
  refine ⟨nanoid_length 8 _, ?_, ?_, nanoid_chars 8 _⟩
  · rw [nanoid_length]
    decide
  · rw [nanoid_length]
    decide

/-- Witness for C6's amended theorem: all-zero bytes generate "uuuuuuuu". -/
theorem C6_generated_code_shape_witness :
    "uuuuuuuu".length = 8 ∧ 3 ≤ "uuuuuuuu".length ∧ "uuuuuuuu".length ≤ 10 ∧
      "uuuuuuuu".toList.all (fun c => isShortCodeChar c || c == '_') = true :=
  C6_generated_code_shape (fun _ _ => 0) emptyStore 3 "uuuuuuuu" rfl

/-- The generation loop consults only the byte streams of its own attempts:
its result is unchanged under any byte source agreeing on those attempts. -/
theorem generateAux_congr (s : Store) :
    ∀ (fuel i : Nat) (rand rand' : Nat → Nat → Nat),
      (∀ j, i ≤ j → j < i + fuel → rand j = rand' j) →
      LinkService.generateUniqueShortCodeAux rand s i fuel =
        LinkService.generateUniqueShortCodeAux rand' s i fuel := by
  intro fuel
  induction fuel with
  | zero => intro i _ _ _; rfl
  | succ n ih =>
    intro i rand rand' h
    have hi : rand i = rand' i := h i (Nat.le_refl i) (by omega)
    rw [LinkService.generateUniqueShortCodeAux, LinkService.generateUniqueShortCodeAux, hi]
    cases hF : LinkRepository.findByShortCode s (nanoid 8 (rand' i)) with
    | none => rfl
    | some x => exact ih (i + 1) rand rand' (fun j hj1 hj2 => h j (by omega) (by omega))

/-- C7: with no custom code supplied and the URL free, (a) if all three
candidate codes are taken, createLink fails with the internal
could-not-allocate error and the store is unchanged; (b) if attempt i < 3 is
the first to produce a free code, the created link's shortCode is exactly
that candidate; (c) the outcome depends only on the byte streams of the
first three attempts — no further candidates are consulted. -/
theorem C7_allocation_attempts (rand : Nat → Nat → Nat) (s : Store)
    (data : CreateLinkDTO) (hnone : data.shortCode = none)
    (hurl : LinkRepository.findByOriginalUrl s data.originalUrl = none) :
    ((∀ i < 3, LinkRepository.findByShortCode s (nanoid 8 (rand i)) ≠ none) →
      LinkService.createLink rand s data =
        (.error ⟨"No se pudo generar un código único", .INTERNAL_SERVER_ERROR⟩, s)) ∧
    (∀ i < 3, LinkRepository.findByShortCode s (nanoid 8 (rand i)) = none →
      (∀ j < i, LinkRepository.findByShortCode s (nanoid 8 (rand j)) ≠ none) →
      ∃ link s', LinkService.createLink rand s data = (.ok link, s') ∧
        link.shortCode = nanoid 8 (rand i)) ∧
    (∀ rand' : Nat → Nat → Nat, (∀ i < 3, rand i = rand' i) →
      LinkService.createLink rand s data = LinkService.createLink rand' s data) := by
  have ha1 : s.rows.any (fun l => l.originalUrl == data.originalUrl) = false :=
    any_eq_false_of_find?_none hurl
  refine ⟨?_, ?_, ?_⟩
  · intro htaken
    rcases h0 : LinkRepository.findByShortCode s (nanoid 8 (rand 0)) with _ | x0
    · exact absurd h0 (htaken 0 (by decide))
    rcases h1 : LinkRepository.findByShortCode s (nanoid 8 (rand 1)) with _ | x1
    · exact absurd h1 (htaken 1 (by decide))
    rcases h2 : LinkRepository.findByShortCode s (nanoid 8 (rand 2)) with _ | x2
    · exact absurd h2 (htaken 2 (by decide))
    have hdet : LinkService.determineShortCode rand s data =
        .error ⟨"No se pudo generar un código único", .INTERNAL_SERVER_ERROR⟩ := by
      simp [LinkService.determineShortCode, hnone, LinkService.generateUniqueShortCode,
        LinkService.generateUniqueShortCodeAux, h0, h1, h2]
    rw [LinkService.createLink, LinkService.createLinkW.eq_def, hurl]
    simp [hdet]
  · intro i hi hfree hprev
    interval_cases i
    · have hdet : LinkService.determineShortCode rand s data = .ok (nanoid 8 (rand 0)) := by
        simp [LinkService.determineShortCode, hnone, LinkService.generateUniqueShortCode,
          LinkService.generateUniqueShortCodeAux, hfree]
      have ha2 : s.rows.any (fun l => l.shortCode == nanoid 8 (rand 0)) = false :=
        any_eq_false_of_find?_none hfree
      rw [LinkService.createLink, LinkService.createLinkW.eq_def, hurl]
      simp [hdet, LinkRepository.create, insertRow, ha1, ha2]
    · rcases h0 : LinkRepository.findByShortCode s (nanoid 8 (rand 0)) with _ | x0
      · exact absurd h0 (hprev 0 (by decide))
      have hdet : LinkService.determineShortCode rand s data = .ok (nanoid 8 (rand 1)) := by
        simp [LinkService.determineShortCode, hnone, LinkService.generateUniqueShortCode,
          LinkService.generateUniqueShortCodeAux, h0, hfree]
      have ha2 : s.rows.any (fun l => l.shortCode == nanoid 8 (rand 1)) = false :=
        any_eq_false_of_find?_none hfree
      rw [LinkService.createLink, LinkService.createLinkW.eq_def, hurl]
      simp [hdet, LinkRepository.create, insertRow, ha1, ha2]
    · rcases h0 : LinkRepository.findByShortCode s (nanoid 8 (rand 0)) with _ | x0
      · exact absurd h0 (hprev 0 (by decide))
      rcases h1 : LinkRepository.findByShortCode s (nanoid 8 (rand 1)) with _ | x1
      · exact absurd h1 (hprev 1 (by decide))
      have hdet : LinkService.determineShortCode rand s data = .ok (nanoid 8 (rand 2)) := by
        simp [LinkService.determineShortCode, hnone, LinkService.generateUniqueShortCode,
          LinkService.generateUniqueShortCodeAux, h0, h1, hfree]
      have ha2 : s.rows.any (fun l => l.shortCode == nanoid 8 (rand 2)) = false :=
        any_eq_false_of_find?_none hfree
      rw [LinkService.createLink, LinkService.createLinkW.eq_def, hurl]
      simp [hdet, LinkRepository.create, insertRow, ha1, ha2]
  · intro rand' hr
    have hdet : LinkService.determineShortCode rand s data =
        LinkService.determineShortCode rand' s data := by
      simp only [LinkService.determineShortCode, hnone]
      rw [LinkService.generateUniqueShortCode, LinkService.generateUniqueShortCode]
      exact generateAux_congr s 3 0 rand rand' (fun j hj1 hj2 => hr j (by omega))
    simp only [LinkService.createLink, LinkService.createLinkW.eq_def]
    rw [hdet]

/-- Witness for C7 part (a): with every candidate equal to the stored code
"________", all three attempts collide and createLink fails Internal. -/
theorem C7_allocation_attempts_witness :
    LinkService.createLink (fun _ _ => 44)
        ⟨[⟨1, "https://b.com", "________", true, 0, 0⟩], 2, 1⟩ ⟨"https://a.com", none⟩ =
      (.error ⟨"No se pudo generar un código único", .INTERNAL_SERVER_ERROR⟩,
        ⟨[⟨1, "https://b.com", "________", true, 0, 0⟩], 2, 1⟩) :=
  (C7_allocation_attempts (fun _ _ => 44)
    ⟨[⟨1, "https://b.com", "________", true, 0, 0⟩], 2, 1⟩
    ⟨"https://a.com", none⟩ rfl rfl).1 (by decide)

/-- C10: an empty-string custom code takes exactly the no-custom-code path
(JavaScript falsiness), and any link it successfully creates carries a
generated, 8-character short code. -/
theorem C10_empty_custom_code (rand : Nat → Nat → Nat) (s : Store) (url : String) :
    LinkService.createLink rand s ⟨url, some ""⟩ = LinkService.createLink rand s ⟨url, none⟩ ∧
    ∀ link s', LinkService.createLink rand s ⟨url, some ""⟩ = (.ok link, s') →
      link.shortCode.length = 8 := by
  have hdet : LinkService.determineShortCode rand s ⟨url, some ""⟩ =
      LinkService.generateUniqueShortCode rand s 3 := by
    simp [LinkService.determineShortCode]
  have hdet2 : LinkService.determineShortCode rand s ⟨url, none⟩ =
      LinkService.generateUniqueShortCode rand s 3 := by
    simp [LinkService.determineShortCode]
  constructor
  · simp only [LinkService.createLink, LinkService.createLinkW.eq_def]
    rw [hdet, hdet2]
  · intro link s' h
    rw [LinkService.createLink, LinkService.createLinkW.eq_def] at h
    split at h
    · simp at h
    · split at h
      · simp at h
      · rename_i code hcode
        split at h
        · rename_i link0 s0 hins
          rw [Prod.mk.injEq] at h
          obtain ⟨hl, -⟩ := h
          rw [Except.ok.injEq] at hl
          subst hl
          rw [LinkRepository.create, insertRow] at hins
          split at hins
          · cases hins
          · split at hins
            · cases hins
            · rw [Except.ok.injEq, Prod.mk.injEq] at hins
              obtain ⟨hl0, -⟩ := hins
              subst hl0
              rw [hdet] at hcode
              obtain ⟨j, rfl⟩ := generateAux_ok_shape rand s 3 0 code hcode
              exact nanoid_length 8 (rand j)
        · simp at h

/-- Witness for C10 on the empty store with all-zero bytes. -/
theorem C10_empty_custom_code_witness :
    LinkService.createLink (fun _ _ => 0) emptyStore ⟨"https://x.com", some ""⟩ =
      LinkService.createLink (fun _ _ => 0) emptyStore ⟨"https://x.com", none⟩ ∧
    "uuuuuuuu".length = 8 :=
  ⟨(C10_empty_custom_code (fun _ _ => 0) emptyStore "https://x.com").1,
   (C10_empty_custom_code (fun _ _ => 0) emptyStore "https://x.com").2
     ⟨1, "https://x.com", "uuuuuuuu", true, 0, 0⟩
     ⟨[⟨1, "https://x.com", "uuuuuuuu", true, 0, 0⟩], 2, 1⟩ rfl⟩
